import Mathlib

/-!
Verification of the TituloGo title-normalization and validation pipeline
(source file `appClaudelast.py`, the most evolved application variant).

Python strings are modelled as `List Char` (`Str`).  Python functions that can
raise are modelled in `Except Str`; the external generation engine and the
JSON decoding of its reply (Anthropic client + `json.loads`, both external
libraries) are modelled as a single `Except Str Json` input: `.error` covers a
transport failure as well as an undecodable (non-JSON) reply, `.ok j` a reply
that decoded to the JSON value `j`.
-/

set_option maxHeartbeats 1000000

abbrev Str := List Char

def toL (s : String) : Str := s.toList

/-- Whitespace characters recognised by Python `str.split` / `str.strip` /
regex `\s` for the inputs of this pipeline. -/
def isSpaceCh (c : Char) : Bool :=
  c == ' ' || c == '\t' || c == '\n' || c == '\r' || c == '\u000B' || c == '\u000C'

/-- Accented letters that occur in the source literals; Python treats them as
cased word characters. -/
def accentLower : Str := toL "áéíóúñü"

def accentUpper : Str := toL "ÁÉÍÓÚÑÜ"

def isLowerCh (c : Char) : Bool :=
  (97 ≤ c.toNat && c.toNat ≤ 122) || accentLower.contains c

def isUpperCh (c : Char) : Bool :=
  (65 ≤ c.toNat && c.toNat ≤ 90) || accentUpper.contains c

def isCasedCh (c : Char) : Bool := isLowerCh c || isUpperCh c

def isDigitCh (c : Char) : Bool := 48 ≤ c.toNat && c.toNat ≤ 57

/-- Word character for Python `re` `\b` / `\w` over this pipeline's alphabet:
ASCII alphanumerics, underscore, and the accented letters above. -/
def isWordCh (c : Char) : Bool :=
  isDigitCh c || (97 ≤ c.toNat && c.toNat ≤ 122) || (65 ≤ c.toNat && c.toNat ≤ 90)
    || c == '_' || accentLower.contains c || accentUpper.contains c

def charLower (c : Char) : Char :=
  if 65 ≤ c.toNat ∧ c.toNat ≤ 90 then Char.ofNat (c.toNat + 32)
  else if c = 'Á' then 'á' else if c = 'É' then 'é' else if c = 'Í' then 'í'
  else if c = 'Ó' then 'ó' else if c = 'Ú' then 'ú' else if c = 'Ñ' then 'ñ'
  else if c = 'Ü' then 'ü' else c

def charUpper (c : Char) : Char :=
  if 97 ≤ c.toNat ∧ c.toNat ≤ 122 then Char.ofNat (c.toNat - 32)
  else if c = 'á' then 'Á' else if c = 'é' then 'É' else if c = 'í' then 'Í'
  else if c = 'ó' then 'Ó' else if c = 'ú' then 'Ú' else if c = 'ñ' then 'Ñ'
  else if c = 'ü' then 'Ü' else c

/-- Python `str.lower`. -/
def pyLower (s : Str) : Str := s.map charLower

/-- Python `str.upper`. -/
def pyUpper (s : Str) : Str := s.map charUpper

/-- Python `str.isupper`: at least one cased character and no lowercase one. -/
def pyIsUpper (s : Str) : Bool :=
  s.any isCasedCh && s.all (fun c => !isLowerCh c)

/-- Python `str.strip()` (whitespace strip). -/
def pyStrip (s : Str) : Str :=
  ((s.dropWhile isSpaceCh).reverse.dropWhile isSpaceCh).reverse

/-- Python `needle in haystack` prelude: does `s` start with `p`? -/
def strStarts : Str → Str → Bool
  | [], _ => true
  | _ :: _, [] => false
  | a :: ps, b :: hs => a == b && strStarts ps hs

/-- Python substring test `needle in haystack`. -/
def strContains (needle : Str) : Str → Bool
  | [] => strStarts needle []
  | c :: rest => strStarts needle (c :: rest) || strContains needle rest

/-- Python `str.split()` (split on whitespace runs, dropping empty pieces);
`acc` is the current token, reversed. -/
def pySplitAux : Str → Str → List Str
  | [], acc => if acc = [] then [] else [acc.reverse]
  | c :: rest, acc =>
    if isSpaceCh c then
      if acc = [] then pySplitAux rest [] else acc.reverse :: pySplitAux rest []
    else pySplitAux rest (c :: acc)

def pySplit (s : Str) : List Str := pySplitAux s []

/-- Python `" ".join`. -/
def joinSpace : List Str → Str
  | [] => []
  | [w] => w
  | w :: ws => w ++ ' ' :: joinSpace ws

/-- The whitespace tidy `" ".join(t.split())` used throughout the source. -/
def collapseWs (s : Str) : Str := joinSpace (pySplit s)

-- === Title post-processing helpers (source lines 72-103) ===

/-- `ACRONYMS_OK` from the source: a case-sensitive `set` literal. -/
def ACRONYMS_OK : List Str :=
  [toL "PVC", toL "CPVC", toL "AC", toL "DC", toL "LED", toL "RGB",
   toL "IP", toL "UV", toL "USB", toL "HDMI",
   toL "mm", toL "cm", toL "m", toL "plg"]

/-- `_cap_first`: `w[:1].upper() + w[1:].lower()`. -/
def capFirst : Str → Str
  | [] => []
  | c :: rest => charUpper c :: pyLower rest

/-- The punctuation set stripped by `de_shout`: period, comma, semicolon,
colon, parentheses, square and curly brackets, hyphen, slash. -/
def isPunctCh (c : Char) : Bool :=
  c == '.' || c == ',' || c == ';' || c == ':' || c == '(' || c == ')'
    || c == '[' || c == ']' || c == '{' || c == '}' || c == '-' || c == '/'

/-- One loop iteration of `de_shout` (source lines 89-102).  Note the source
computes `suffix_len = len(stripped) - len(bare)` where `bare = stripped`, so
`suffix_len` is always `0` and the stripped trailing punctuation is dropped
for rewritten tokens; the dead computation is kept as written. -/
def deShoutTok (w : Str) : Str :=
  let stripped_left := w.dropWhile isPunctCh
  let stripped := (stripped_left.reverse.dropWhile isPunctCh).reverse
  let bare := stripped
  if 1 < bare.length ∧ pyIsUpper bare = true ∧ bare ∉ ACRONYMS_OK then
    let prefix_len := w.length - stripped_left.length
    let suffix_len := stripped.length - bare.length
    let pre := w.take prefix_len
    let suf := if suffix_len > 0 then w.drop (w.length - suffix_len) else []
    pre ++ capFirst bare ++ suf
  else w

/-- `de_shout` (source lines 83-103): token-wise case repair. -/
def de_shout (text : Str) : Str :=
  joinSpace ((pySplit text).map deShoutTok)

-- === Regex machinery for the word-boundary substitutions ===

def isWordOpt : Option Char → Bool
  | none => false
  | some c => isWordCh c

/-- Python `re` word boundary between a previous character (`none` at the
string edge) and the character at the current position. -/
def wordBoundary (prev : Option Char) (cur : Option Char) : Bool :=
  isWordOpt prev != isWordOpt cur

/-- Case-insensitive literal match: on success returns the consumed text
characters and the remainder. -/
def matchCI : Str → Str → Option (Str × Str)
  | [], s => some ([], s)
  | _ :: _, [] => none
  | p :: ps, c :: cs =>
    if charLower p = charLower c then
      match matchCI ps cs with
      | some (tk, rest) => some (c :: tk, rest)
      | none => none
    else none

/-- One attempt to match `\b base (s)? \b` (with the optional `s` only when
`optS` is true) at the current position, given the previous text character.
Returns the last consumed character and the remainder.  The greedy `(s)?`
branch is tried first, then the regex backtracks to the branch without it. -/
def wbTryMatch (base : Str) (optS : Bool) (prev : Option Char) (s : Str) :
    Option (Char × Str) :=
  if wordBoundary prev s.head? = false then none
  else
    match matchCI base s with
    | none => none
    | some (tk, rest1) =>
      match tk.getLast? with
      | none => none
      | some lastB =>
        match rest1 with
        | sc :: rest2 =>
          if optS ∧ (sc = 's' ∨ sc = 'S') ∧ wordBoundary (some sc) rest2.head? = true then
            some (sc, rest2)
          else if wordBoundary (some lastB) rest1.head? = true then
            some (lastB, rest1)
          else none
        | [] =>
          if wordBoundary (some lastB) none = true then some (lastB, [])
          else none

/-- `re.sub` scan for the word-boundary patterns: non-overlapping, left to
right; after a replacement the scan resumes after the matched span, and the
boundary context is the last matched text character. -/
def wbSubGo (base : Str) (optS : Bool) (repl : Str) :
    Nat → Option Char → Str → Str
  | 0, _, s => s
  | _ + 1, _, [] => []
  | fuel + 1, prev, c :: rest =>
    match wbTryMatch base optS prev (c :: rest) with
    | some (lastC, remainder) => repl ++ wbSubGo base optS repl fuel (some lastC) remainder
    | none => c :: wbSubGo base optS repl fuel (some c) rest

/-- `re.sub(rf"\b...(s)?\b", repl, text, re.IGNORECASE)` for a literal
(escaped) base, as used by `apply_transformations` (`optS = true`) and
`remove_forbidden_terms` (`optS = false`, empty replacement). -/
def wbSubAll (base : Str) (optS : Bool) (repl : Str) (text : Str) : Str :=
  wbSubGo base optS repl text.length none text

/-- `apply_transformations` (source lines 50-69). -/
def apply_transformations (text : Str) (transformations : List (Str × Str)) : Str :=
  if text = [] then text
  else
    let out := transformations.foldl
      (fun out p =>
        let base := pyStrip p.1
        if base = [] then out else wbSubAll base true p.2 out)
      text
    collapseWs out

/-- Python `str.replace(old, new)`: replace every non-overlapping occurrence,
left to right.  The `old = []` case is unreachable here (guarded at the call
site) and is modelled as the identity. -/
def strReplaceGo (old new : Str) : Nat → Str → Str
  | 0, s => s
  | _ + 1, [] => []
  | fuel + 1, c :: rest =>
    if !old.isEmpty && strStarts old (c :: rest) then
      new ++ strReplaceGo old new fuel ((c :: rest).drop old.length)
    else c :: strReplaceGo old new fuel rest

def strReplaceAll (s old new : Str) : Str := strReplaceGo old new s.length s

/-- `remove_brand_occurrences` (source lines 106-117). -/
def remove_brand_occurrences (text brand : Str) : Str :=
  if brand = [] ∨ text = [] then text
  else
    let t := strReplaceAll text brand []
    let t := strReplaceAll t (pyUpper brand) []
    let t := strReplaceAll t (pyLower brand) []
    let t := strReplaceAll t (capFirst (pyLower brand)) []
    pyStrip (collapseWs t)

/-- `FORBIDDEN_TECH_TERMS` (source lines 119-128), in source order. -/
def FORBIDDEN_TECH_TERMS : List Str :=
  [toL "penetrante",
   toL "hidráulico", toL "hidraulico",
   toL "neumático", toL "neumatico",
   toL "amortiguador",
   toL "dieléctrico", toL "dielektrico",
   toL "epóxico", toL "epoxico", toL "epóxica", toL "epoxica",
   toL "antigripante",
   toL "dieléctrica", toL "dielektrica"]

/-- `remove_forbidden_terms` (source lines 130-144). -/
def remove_forbidden_terms (text : Str) : Str :=
  if text = [] then text
  else
    collapseWs (FORBIDDEN_TECH_TERMS.foldl (fun out term => wbSubAll term false [] out) text)

-- === Generic trailing "para ..." phrases (source lines 203-223) ===

/-- An element of one of the `GENERIC_PARA_PATTERNS` after the leading `\s*`:
either a character class (one character, matched case-insensitively against
the listed lowercase options) or a `\s+` gap. -/
inductive RItem
  | cls (cs : List Char)
  | gap

/-- Encode a word as a sequence of single-character classes. -/
def litItems (w : String) : List RItem := w.toList.map (fun c => RItem.cls [c])

/-- The six patterns, in source order; `[ií]`-style classes are explicit.
Matching is case-insensitive (`re.IGNORECASE`). -/
def GENERIC_PARA_PATTERNS : List (List RItem) :=
  [litItems "para" ++ [RItem.gap] ++ litItems "plomer" ++ [RItem.cls ['i', 'í']] ++ litItems "a",
   litItems "para" ++ [RItem.gap] ++ litItems "tuber" ++ [RItem.cls ['i', 'í']] ++ litItems "a",
   litItems "para" ++ [RItem.gap] ++ litItems "ferreter" ++ [RItem.cls ['i', 'í']] ++ litItems "a",
   litItems "para" ++ [RItem.gap] ++ litItems "construcci" ++ [RItem.cls ['o', 'ó']] ++ litItems "n",
   litItems "para" ++ [RItem.gap] ++ litItems "el" ++ [RItem.gap] ++ litItems "hogar",
   litItems "para" ++ [RItem.gap] ++ litItems "hogar"]

/-- Match a pattern core against a string, returning the remainder.  A `gap`
(`\s+`) consumes a maximal whitespace run; shorter runs cannot succeed because
every following class is a non-space letter. -/
def matchItems : List RItem → Str → Option Str
  | [], s => some s
  | RItem.cls cs :: items, c :: rest =>
    if cs.contains (charLower c) then matchItems items rest else none
  | RItem.cls _ :: _, [] => none
  | RItem.gap :: items, c :: rest =>
    if isSpaceCh c then matchItems items (rest.dropWhile isSpaceCh) else none
  | RItem.gap :: _, [] => none

/-- Try `\s* core $` at the current position: the leading `\s*` eats a maximal
whitespace run, and `$` accepts the end of the string or a final newline.
Returns the remainder after the matched span. -/
def tryGeneric (items : List RItem) (s : Str) : Option Str :=
  match matchItems items (s.dropWhile isSpaceCh) with
  | some rem => if rem = [] ∨ rem = ['\n'] then some rem else none
  | none => none

/-- `re.sub(pattern, "", out)` for one anchored generic pattern: leftmost
match wins, the span is deleted, and nothing after it can match again. -/
def subGeneric (items : List RItem) : Str → Str
  | [] => []
  | c :: rest =>
    match tryGeneric items (c :: rest) with
    | some rem => rem
    | none => c :: subGeneric items rest

/-- `remove_generic_para_phrases` (source lines 212-223). -/
def remove_generic_para_phrases (text : Str) : Str :=
  if text = [] then text
  else collapseWs (GENERIC_PARA_PATTERNS.foldl (fun out items => subGeneric items out) text)

-- === Taxonomy normalization and matching (source lines 148-198) ===

/-- One replacement of `re.sub(r"\s*\([^)]*\)", "", value)`: maximal leading
whitespace, an opening parenthesis, everything up to the first closing
parenthesis, and that parenthesis. -/
def tryParen (s : Str) : Option Str :=
  match s.dropWhile isSpaceCh with
  | '(' :: r2 =>
    match r2.dropWhile (fun c => c ≠ ')') with
    | ')' :: r4 => some r4
    | _ => none
  | _ => none

def stripParensGo : Nat → Str → Str
  | 0, s => s
  | _ + 1, [] => []
  | fuel + 1, c :: rest =>
    match tryParen (c :: rest) with
    | some r => stripParensGo fuel r
    | none => c :: stripParensGo fuel rest

/-- `normalize_tax_value` (source lines 148-160); the `None` guard is not
needed since inputs are modelled as strings. -/
def normalize_tax_value (value : Str) : Str :=
  pyUpper (pyStrip (stripParensGo value.length value))

/-- A `NomenclatureRule` row: the columns of the nomenclature sheet that
`find_pattern_row` and the batch flow read. -/
structure Row where
  Departamento : Str
  Familia : Str
  Categoria : Str
  Nomenclatura : Str
deriving DecidableEq

def candMatch (dept fam : Str) (r : Row) : Bool :=
  decide (normalize_tax_value r.Departamento = normalize_tax_value dept)
    && decide (normalize_tax_value r.Familia = normalize_tax_value fam)

def catMatch (cat : Str) (r : Row) : Bool :=
  decide (normalize_tax_value r.Categoria = normalize_tax_value cat)

/-- The word-overlap score of the best-effort fallback:
`len(cat_words & words)` for the two word sets. -/
def overlapScore (cat : Str) (r : Row) : Nat :=
  let cat_words := (pySplit (normalize_tax_value cat)).eraseDups
  let words := (pySplit (normalize_tax_value r.Categoria)).eraseDups
  (cat_words.filter (fun w => words.contains w)).length

/-- `Series.idxmax` over a non-empty column: the first element attaining the
maximum value (pandas documents the first occurrence for ties). -/
def idxmaxFirst (f : Row → Nat) : List Row → Option Row
  | [] => none
  | a :: l =>
    match idxmaxFirst f l with
    | none => some a
    | some b => if f b > f a then some b else some a

/-- `find_pattern_row` (source lines 163-198). -/
def find_pattern_row (nomenclature_df : List Row) (dept fam cat : Str) : Option Row :=
  let candidates := nomenclature_df.filter (candMatch dept fam)
  if candidates.isEmpty then none
  else
    let with_cat := candidates.filter (catMatch cat)
    if ¬ with_cat.isEmpty then with_cat.head?
    else
      let cat_words := (pySplit (normalize_tax_value cat)).eraseDups
      if cat_words = [] then candidates.head?
      else idxmaxFirst (overlapScore cat) candidates

-- === JSON values and Python dict/list primitives ===

/-- The JSON values `json.loads` can produce, as far as this pipeline needs:
numbers are modelled as integers (none of the verified paths inspects a
numeric payload beyond truthiness). -/
inductive Json
  | null
  | bool (b : Bool)
  | num (n : Int)
  | str (s : Str)
  | arr (elems : List Json)
  | obj (entries : List (Str × Json))

/-- First-match association lookup: Python dicts have unique keys, so this is
`d[k]` when present. -/
def jLookup : List (Str × Json) → Str → Option Json
  | [], _ => none
  | (k', v) :: rest, k => if k' = k then some v else jLookup rest k

/-- Python `d[k] = v`: replace the first entry with that key, or append. -/
def setFirst : List (Str × Json) → Str → Json → List (Str × Json)
  | [], k, v => [(k, v)]
  | (k', v') :: rest, k, v =>
    if k' = k then (k', v) :: rest else (k', v') :: setFirst rest k v

/-- Python truthiness of a JSON value. -/
def pyFalsy : Json → Bool
  | Json.null => true
  | Json.bool b => !b
  | Json.num n => n == 0
  | Json.str s => s.isEmpty
  | Json.arr l => l.isEmpty
  | Json.obj l => l.isEmpty

def pyTruthy (j : Json) : Bool := !pyFalsy j

/-- Python `key in value` for the membership tests of the record loop:
substring test on a string, element equality on a list, key membership on a
dict, `TypeError` otherwise. -/
def pyIn (k : Str) : Json → Except Str Bool
  | Json.obj kvs => Except.ok (kvs.any (fun p => decide (p.1 = k)))
  | Json.str s => Except.ok (strContains k s)
  | Json.arr l => Except.ok (l.any (fun j => match j with | Json.str s => decide (s = k) | _ => false))
  | _ => Except.error (toL "TypeError")

/-- Python `value[k]` (read). -/
def pyGetItem (j : Json) (k : Str) : Except Str Json :=
  match j with
  | Json.obj kvs =>
    match jLookup kvs k with
    | some v => Except.ok v
    | none => Except.error (toL "KeyError")
  | _ => Except.error (toL "TypeError")

/-- Python `value[k] = v` (write). -/
def pySetItem (j : Json) (k : Str) (v : Json) : Except Str Json :=
  match j with
  | Json.obj kvs => Except.ok (Json.obj (setFirst kvs k v))
  | _ => Except.error (toL "TypeError")

/-- Python `value.get(k, default)`; raises `AttributeError` on non-dicts. -/
def pyGetD (j : Json) (k : Str) (dflt : Json) : Except Str Json :=
  match j with
  | Json.obj kvs => Except.ok ((jLookup kvs k).getD dflt)
  | _ => Except.error (toL "AttributeError")

-- === Quick rule-based validation (source lines 267-327) ===

/-- A single-quote character, used by the f-string issue messages. -/
def sqCh : Str := [Char.ofNat 39]

def problematic_para : List Str :=
  [toL "para agua sucia", toL "para agua limpia",
   toL "para sellado de roscas", toL "para sellado",
   toL "para drenajes y tuberías", toL "para drenajes",
   toL "para construcción", toL "para plomería",
   toL "para tubería", toL "para ferretería"]

def abbrev_map : List (Str × List Str) :=
  [(toL "para agua sucia", [toL "A.SUCIA", toL "A SUCIA"]),
   (toL "para agua limpia", [toL "A.LIMP", toL "A LIMP"]),
   (toL "para sellado", [toL "P/SELLADO", toL "P SELLADO"])]

def lookupAbbrev : List (Str × List Str) → Str → Option (List Str)
  | [], _ => none
  | (k, v) :: rest, p => if k = p then some v else lookupAbbrev rest p

def msgIncorrectPara (phrase ab : Str) : Str :=
  toL "Incorrectly added " ++ sqCh ++ toL "para" ++ sqCh ++ toL " with abbreviation: "
    ++ sqCh ++ phrase ++ sqCh ++ toL " (original has " ++ sqCh ++ ab ++ sqCh ++ toL ")"

def msgAddedGeneric (phrase : Str) : Str :=
  toL "Added generic phrase not in original: " ++ sqCh ++ phrase ++ sqCh

def msgInvented (term : Str) : Str :=
  toL "Invented technical term: " ++ sqCh ++ term ++ sqCh

def msgMissingMeasure (measure : Str) : Str :=
  toL "Missing critical measurement: " ++ sqCh ++ measure ++ sqCh

/-- The issue(s) recorded for one suspect phrase found in the generated title
(the body of the Rule 1 loop once `phrase in generated_title.lower()`). -/
def phraseIssues (original_title phrase : Str) : List Str :=
  if strContains phrase (pyLower original_title) then []
  else
    match lookupAbbrev abbrev_map phrase with
    | some abbrevs =>
      match abbrevs.find? (fun ab => strContains ab (pyUpper original_title)) with
      | some ab => [msgIncorrectPara phrase ab]
      | none => [msgAddedGeneric phrase]
    | none => [msgAddedGeneric phrase]

/-- The ordered unit alternatives of the measurement regex
`\d+(?:/\d+)?(?:\s*(?:mm|cm|m|plg|pulgada|Hp|HP|L/min|W))`. -/
def measUnits : List Str :=
  [toL "mm", toL "cm", toL "m", toL "plg", toL "pulgada",
   toL "Hp", toL "HP", toL "L/min", toL "W"]

/-- After the numeric part, match `\s*` (maximal: every unit begins with a
non-space) followed by the first unit alternative that fits. -/
def unitFrom (consumed r : Str) : Option (Str × Str) :=
  let sp := r.takeWhile isSpaceCh
  let r2 := r.dropWhile isSpaceCh
  match measUnits.find? (fun u => strStarts u r2) with
  | some u => some (consumed ++ sp ++ u, r2.drop u.length)
  | none => none

/-- Match the measurement regex at the current position: a maximal digit run
(shorter runs cannot succeed, as the next char would be a digit), a greedy
optional `/digits` fraction that the regex abandons if no unit follows it,
then whitespace and a unit.  Returns the matched text and the remainder. -/
def matchMeasureAt (s : Str) : Option (Str × Str) :=
  let ds := s.takeWhile isDigitCh
  let r1 := s.dropWhile isDigitCh
  if ds = [] then none
  else
    let fracTry :=
      match r1 with
      | '/' :: r2 =>
        let ds2 := r2.takeWhile isDigitCh
        let r3 := r2.dropWhile isDigitCh
        if ds2 = [] then none else unitFrom (ds ++ '/' :: ds2) r3
      | _ => none
    match fracTry with
    | some res => some res
    | none => unitFrom ds r1

/-- `re.findall` scan: leftmost, non-overlapping. -/
def findMeasGo : Nat → Str → List Str
  | 0, _ => []
  | _ + 1, [] => []
  | fuel + 1, c :: rest =>
    match matchMeasureAt (c :: rest) with
    | some (m, r) => m :: findMeasGo fuel r
    | none => findMeasGo fuel rest

def findMeasurements (s : Str) : List Str := findMeasGo s.length s

def normalizeHp (s : Str) : Str :=
  strReplaceAll (strReplaceAll s (toL "Hp") (toL "HP")) (toL "hp") (toL "HP")

/-- `quick_validation_rules` (source lines 267-327): three accumulated checks
behind the guard that both titles are non-empty. -/
def quick_validation_rules (original_title generated_title : Str) : List Str :=
  if original_title = [] ∨ generated_title = [] then []
  else
    let issues1 := problematic_para.foldl
      (fun acc phrase =>
        if strContains phrase (pyLower generated_title) then
          acc ++ phraseIssues original_title phrase
        else acc) []
    let issues2 := FORBIDDEN_TECH_TERMS.foldl
      (fun acc term =>
        if strContains (pyLower term) (pyLower generated_title)
            && !strContains (pyLower term) (pyLower original_title) then
          acc ++ [msgInvented term]
        else acc) issues1
    findMeasurements original_title |>.foldl
      (fun acc measure =>
        if !strContains (normalizeHp measure) (normalizeHp generated_title) then
          acc ++ [msgMissingMeasure measure]
        else acc) issues2

-- === Two-agent validation protocol and batch processing (source 330-589) ===

/-- `validate_with_agent` (source lines 330-420).  The Anthropic call, the
code-fence stripping and `json.loads` are external effects, modelled by
`resp`: `.ok j` is a reply that decoded to the JSON value `j` (returned
as-is, unchecked), `.error e` is any raised exception (transport error,
non-JSON reply, ...), answered by the fallback dict of the `except` branch. -/
def validate_with_agent (original_title : Str) (generated_title : Json)
    (api_key : Str) (resp : Except Str Json) : Json :=
  match resp with
  | Except.ok result => result
  | Except.error e =>
    Json.obj
      [(toL "is_valid", Json.bool false),
       (toL "corrected_title", generated_title),
       (toL "issues_found", Json.arr [Json.str (toL "Validation error: " ++ e)]),
       (toL "removed_phrases", Json.arr []),
       (toL "confidence", Json.str (toL "low"))]

/-- One product of a batch, as assembled by the batch flow (source lines
861-868); `marca` is the `"marca"` entry (always present there). -/
structure Product where
  titulo_sistema_existente : Str
  departamento : Str
  familia : Str
  categoria : Str
  marca : Str

/-- The per-field post-processing chain of the record loop (source lines
527-545): transformations, brand removal, case repair, forbidden terms,
generic phrases, whitespace normalization. -/
def postProcessTitle (transformations : List (Str × Str)) (brand : Str) (t : Str) : Str :=
  let t1 := apply_transformations t transformations
  let t2 := remove_brand_occurrences t1 brand
  let t3 := de_shout t2
  let t4 := remove_forbidden_terms t3
  let t5 := remove_generic_para_phrases t4
  collapseWs t5

def sistemaKey : Str := toL "titulo_sistema"

def etiquetaKey : Str := toL "titulo_etiqueta"

def seoKey : Str := toL "titulo_seo"

def validationKey : Str := toL "validation"

/-- One iteration of `for key in ["titulo_sistema", "titulo_etiqueta",
"titulo_seo"]`: rewrite the field when it is present and a string. -/
def normalizeField (transformations : List (Str × Str)) (brand : Str)
    (result : Json) (key : Str) : Except Str Json :=
  match pyIn key result with
  | Except.error e => Except.error e
  | Except.ok b =>
    if b then
      match pyGetItem result key with
      | Except.error e => Except.error e
      | Except.ok (Json.str t) => pySetItem result key (Json.str (postProcessTitle transformations brand t))
      | Except.ok _ => Except.ok result
    else Except.ok result

/-- The post-processing loop over the three title keys, unrolled. -/
def normalizeRecord (transformations : List (Str × Str)) (brand : Str)
    (result : Json) : Except Str Json :=
  match normalizeField transformations brand result sistemaKey with
  | Except.error e => Except.error e
  | Except.ok r1 =>
    match normalizeField transformations brand r1 etiquetaKey with
    | Except.error e => Except.error e
    | Except.ok r2 => normalizeField transformations brand r2 seoKey

/-- The initial `validation_metadata` dict (source lines 554-559). -/
def initialMeta : List (Str × Json) :=
  [(toL "validation_method", Json.str (toL "none")),
   (toL "validation_status", Json.str (toL "passed")),
   (toL "issues_found", Json.arr []),
   (toL "corrected", Json.bool false)]

/-- `quick_validation_rules(original_title, generated_seo)` where the second
argument is whatever `result.get("titulo_seo", "")` returned: for a string
the rules run; any other falsy value (or an empty original) returns no issues
through the guard; a truthy non-string raises at `.lower()`. -/
def quickIssuesOf (original : Str) (generated_seo : Json) : Except Str (List Str) :=
  match generated_seo with
  | Json.str s => Except.ok (quick_validation_rules original s)
  | j => if original = [] ∨ pyFalsy j = true then Except.ok [] else Except.error (toL "AttributeError")

/-- The AI-validation branch of the record loop (source lines 562-574). -/
def aiBranch (agentResp : Except Str Json) (api_key : Str) (original : Str)
    (generated_seo : Json) (result : Json) (quick_issues : List Str) : Except Str Json :=
  let ai_validation := validate_with_agent original generated_seo api_key agentResp
  match pyGetD ai_validation (toL "is_valid") (Json.bool true) with
  | Except.error e => Except.error e
  | Except.ok isv =>
    let step :=
      if pyTruthy isv = false then
        match pyGetD ai_validation (toL "corrected_title") generated_seo with
        | Except.error e => Except.error e
        | Except.ok ct =>
          match pySetItem result seoKey ct with
          | Except.error e => Except.error e
          | Except.ok r =>
            Except.ok (r, setFirst (setFirst initialMeta (toL "corrected") (Json.bool true))
              (toL "validation_status") (Json.str (toL "corrected")))
      else
        Except.ok (result, setFirst initialMeta (toL "validation_status")
          (Json.str (toL "passed_with_warnings")))
    match step with
    | Except.error e => Except.error e
    | Except.ok (r, meta1) =>
      let meta2 := setFirst meta1 (toL "validation_method") (Json.str (toL "ai_validated"))
      match pyGetD ai_validation (toL "issues_found") (Json.arr []) with
      | Except.error e => Except.error e
      | Except.ok (Json.arr aiIssues) =>
        pySetItem r validationKey
          (Json.obj (setFirst meta2 (toL "issues_found")
            (Json.arr (quick_issues.map Json.str ++ aiIssues))))
      | Except.ok _ => Except.error (toL "TypeError")

/-- The `rules_only` metadata (source lines 576-580). -/
def rulesOnlyMeta (quick_issues : List Str) : List (Str × Json) :=
  setFirst (setFirst (setFirst initialMeta
    (toL "validation_method") (Json.str (toL "rules_only")))
    (toL "validation_status") (Json.str (toL "warnings")))
    (toL "issues_found") (Json.arr (quick_issues.map Json.str))

/-- The validation part of the record loop (source lines 547-582): quick
check, optional AI correction, and attachment of the metadata dict. -/
def validateRecord (enable_ai_validation : Bool) (agentResp : Except Str Json)
    (api_key : Str) (product : Product) (result : Json) : Except Str Json :=
  match pyGetD result seoKey (Json.str []) with
  | Except.error e => Except.error e
  | Except.ok generated_seo =>
    match quickIssuesOf product.titulo_sistema_existente generated_seo with
    | Except.error e => Except.error e
    | Except.ok quick_issues =>
      if quick_issues ≠ [] ∧ enable_ai_validation = true then
        aiBranch agentResp api_key product.titulo_sistema_existente generated_seo result quick_issues
      else if quick_issues ≠ [] then
        pySetItem result validationKey (Json.obj (rulesOnlyMeta quick_issues))
      else
        pySetItem result validationKey (Json.obj initialMeta)

/-- One iteration of the record loop: post-processing, then validation.  The
`agentResp` argument is the outcome of the correction call this record would
issue (used only when the quick check finds issues and AI validation is on). -/
def processRecord (transformations : List (Str × Str)) (api_key : Str)
    (enable_ai_validation : Bool) (agentResp : Except Str Json)
    (product : Product) (result : Json) : Except Str Json :=
  match normalizeRecord transformations (pyStrip product.marca) result with
  | Except.error e => Except.error e
  | Except.ok r => validateRecord enable_ai_validation agentResp api_key product r

/-- `enumerate` over a list, starting at `i`. -/
def enumFrom (i : Nat) : List α → List (Nat × α)
  | [] => []
  | a :: l => (i, a) :: enumFrom (i + 1) l

/-- Run an `Except`-valued function over a list, stopping at the first raised
exception (the whole loop body of the source sits inside one `try`). -/
def mapME (f : α → Except ε β) : List α → Except ε (List β)
  | [] => Except.ok []
  | a :: l =>
    match f a with
    | Except.error e => Except.error e
    | Except.ok b =>
      match mapME f l with
      | Except.error e => Except.error e
      | Except.ok bs => Except.ok (b :: bs)

/-- `for idx, (product, result) in enumerate(zip(products_batch, batch_results))`
with the per-record work of `processRecord`. -/
def processBatchInner (transformations : List (Str × Str)) (api_key : Str)
    (enable_ai_validation : Bool) (agent : Nat → Except Str Json)
    (products_batch : List Product) (batch_results : List Json) :
    Except Str (List Json) :=
  mapME (fun p => processRecord transformations api_key enable_ai_validation (agent p.1) p.2.1 p.2.2)
    (enumFrom 0 (products_batch.zip batch_results))

/-- `process_batch_with_validation` (source lines 427-589).  `engineResp`
models the batch generation call plus JSON decoding (see the module header);
`agent` gives each record's correction-call outcome.  Any exception inside
the `try` is caught and turns the whole batch into `[]` (after `st.error`);
a decoded reply that is not a list raises `ValueError` with the same effect. -/
def process_batch_with_validation (products_batch : List Product)
    (nomenclature_pattern : Str) (transformations : List (Str × Str))
    (api_key : Str) (enable_ai_validation : Bool)
    (engineResp : Except Str Json) (agent : Nat → Except Str Json) : List Json :=
  if products_batch.isEmpty then []
  else
    match engineResp with
    | Except.error _ => []
    | Except.ok (Json.arr batch_results) =>
      match processBatchInner transformations api_key enable_ai_validation agent
          products_batch batch_results with
      | Except.ok final_results => final_results
      | Except.error _ => []
    | Except.ok _ => []

/-- The punctuation-stripped core of a token, as computed by `de_shout`. -/
def bareOf (w : Str) : Str :=
  ((w.dropWhile isPunctCh).reverse.dropWhile isPunctCh).reverse

-- === Library lemmas ===

theorem pySplitAux_valid (s : Str) : ∀ acc, (∀ c ∈ acc, isSpaceCh c = false) →
    ∀ w ∈ pySplitAux s acc, w ≠ [] ∧ ∀ c ∈ w, isSpaceCh c = false := by
  induction s with
  | nil =>
    intro acc hacc w hw
    simp only [pySplitAux] at hw
    by_cases h : acc = []
    · simp [h] at hw
    · simp [h] at hw
      subst hw
      refine ⟨by simpa using h, ?_⟩
      intro c hc
      exact hacc c (List.mem_reverse.mp hc)
  | cons c rest ih =>
    intro acc hacc w hw
    simp only [pySplitAux] at hw
    by_cases hsp : isSpaceCh c
    · simp only [hsp, if_true] at hw
      by_cases h : acc = []
      · simp only [h, if_true] at hw
        exact ih [] (by simp) w hw
      · simp only [h, if_false] at hw
        rcases List.mem_cons.mp hw with h1 | h1
        · subst h1
          refine ⟨by simpa using h, ?_⟩
          intro c' hc'
          exact hacc c' (List.mem_reverse.mp hc')
        · exact ih [] (by simp) w h1
    · simp only [hsp, if_false] at hw
      refine ih (c :: acc) ?_ w hw
      intro c' hc'
      rcases List.mem_cons.mp hc' with h1 | h1
      · subst h1; simpa using hsp
      · exact hacc c' h1

theorem pySplitAux_append (w : Str) (hw : ∀ c ∈ w, isSpaceCh c = false) (s acc : Str) :
    pySplitAux (w ++ s) acc = pySplitAux s (w.reverse ++ acc) := by
  induction w generalizing acc with
  | nil => simp
  | cons c w' ih =>
    have hc : isSpaceCh c = false := hw c (by simp)
    have hw' : ∀ c' ∈ w', isSpaceCh c' = false := fun c' h => hw c' (by simp [h])
    simp only [List.cons_append, pySplitAux, hc, if_false, Bool.false_eq_true, List.append_eq]
    rw [ih hw']
    simp [List.append_assoc]

theorem joinSpace_split (ws : List Str)
    (h : ∀ w ∈ ws, w ≠ [] ∧ ∀ c ∈ w, isSpaceCh c = false) :
    pySplit (joinSpace ws) = ws := by
  induction ws with
  | nil => rfl
  | cons w tail ih =>
    obtain ⟨hne, hch⟩ := h w (by simp)
    cases tail with
    | nil =>
      show pySplitAux (joinSpace [w]) [] = [w]
      have : joinSpace [w] = w ++ [] := by simp [joinSpace]
      rw [this, pySplitAux_append w hch]
      simp only [pySplitAux, List.append_nil]
      rw [if_neg (by simpa using hne)]
      simp
    | cons w2 ws2 =>
      show pySplitAux (joinSpace (w :: w2 :: ws2)) [] = w :: w2 :: ws2
      have hj : joinSpace (w :: w2 :: ws2) = w ++ ' ' :: joinSpace (w2 :: ws2) := rfl
      rw [hj, pySplitAux_append w hch]
      simp only [pySplitAux, List.append_nil]
      rw [if_pos (by rfl)]
      rw [if_neg (by simpa using hne)]
      rw [List.reverse_reverse]
      exact congrArg (w :: ·) (ih (fun x hx => h x (by simp [hx])))

theorem pySplit_join_pySplit (s : Str) : pySplit (joinSpace (pySplit s)) = pySplit s :=
  joinSpace_split (pySplit s) (pySplitAux_valid s [] (by simp))

/-- The whitespace tidy is idempotent. -/
theorem collapseWs_idem (s : Str) : collapseWs (collapseWs s) = collapseWs s := by
  unfold collapseWs
  rw [pySplit_join_pySplit]

theorem jLookup_setFirst_self (l : List (Str × Json)) (k : Str) (v : Json) :
    jLookup (setFirst l k v) k = some v := by
  induction l with
  | nil => simp [setFirst, jLookup]
  | cons p rest ih =>
    by_cases h : p.1 = k
    · simp [setFirst, jLookup, h]
    · simp [setFirst, jLookup, h, ih]

theorem jLookup_setFirst_ne (l : List (Str × Json)) (k k' : Str) (v : Json)
    (h : k' ≠ k) : jLookup (setFirst l k v) k' = jLookup l k' := by
  induction l with
  | nil =>
    simp only [setFirst, jLookup]
    rw [if_neg (Ne.symm h)]
  | cons p rest ih =>
    rcases p with ⟨pk, pv⟩
    simp only [setFirst, jLookup]
    by_cases h1 : pk = k
    · rw [if_pos h1]
      simp only [jLookup]
      rw [if_neg (by rw [h1]; exact Ne.symm h), if_neg (by rw [h1]; exact Ne.symm h)]
    · rw [if_neg h1]
      simp only [jLookup]
      by_cases h2 : pk = k'
      · rw [if_pos h2, if_pos h2]
      · rw [if_neg h2, if_neg h2, ih]

theorem mapME_ok_length (f : α → Except ε β) (l : List α) (ys : List β)
    (h : mapME f l = Except.ok ys) : ys.length = l.length := by
  induction l generalizing ys with
  | nil => simp [mapME] at h; simp [← h]
  | cons a tail ih =>
    simp only [mapME] at h
    cases hf : f a with
    | error e => rw [hf] at h; exact absurd h (by simp)
    | ok b =>
      rw [hf] at h
      cases ht : mapME f tail with
      | error e => rw [ht] at h; exact absurd h (by simp)
      | ok bs =>
        rw [ht] at h
        cases h
        simp [ih bs ht]

theorem enumFrom_length (i : Nat) (l : List α) : (enumFrom i l).length = l.length := by
  induction l generalizing i with
  | nil => rfl
  | cons a tail ih => simp [enumFrom, ih]

theorem filter_head_eq_find (p : α → Bool) (l : List α) :
    (l.filter p).head? = l.find? p := by
  induction l with
  | nil => rfl
  | cons a tail ih =>
    by_cases h : p a
    · simp [List.filter_cons, List.find?_cons, h]
    · simp [List.filter_cons, List.find?_cons, h, ih]

theorem idxmaxFirst_spec (f : Row → Nat) (l : List Row) (hne : l ≠ []) :
    ∃ l1 r l2, idxmaxFirst f l = some r ∧ l = l1 ++ r :: l2 ∧
      (∀ x ∈ l1, f x < f r) ∧ (∀ x ∈ l, f x ≤ f r) := by
  induction l with
  | nil => exact absurd rfl hne
  | cons a tail ih =>
    rcases tail with _ | ⟨b, tl⟩
    · exact ⟨[], a, [], by simp [idxmaxFirst], by simp, by simp, by simp⟩
    · obtain ⟨l1, r, l2, hmax, hsplit, hlt, hle⟩ := ih (by simp)
      by_cases h : f r > f a
      · refine ⟨a :: l1, r, l2, ?_, ?_, ?_, ?_⟩
        · have hstep : idxmaxFirst f (a :: b :: tl) =
              match idxmaxFirst f (b :: tl) with
              | none => some a
              | some x => if f x > f a then some x else some a := rfl
          rw [hstep, hmax]
          simp [h]
        · rw [List.cons_append, ← hsplit]
        · intro x hx
          rcases List.mem_cons.mp hx with h1 | h1
          · subst h1; exact h
          · exact hlt x h1
        · intro x hx
          rcases List.mem_cons.mp hx with h1 | h1
          · subst h1; exact Nat.le_of_lt h
          · exact hle x h1
      · refine ⟨[], a, b :: tl, ?_, by simp, by simp, ?_⟩
        · have hstep : idxmaxFirst f (a :: b :: tl) =
              match idxmaxFirst f (b :: tl) with
              | none => some a
              | some x => if f x > f a then some x else some a := rfl
          rw [hstep, hmax]
          simp [h]
        · intro x hx
          rcases List.mem_cons.mp hx with h1 | h1
          · subst h1; exact Nat.le_refl _
          · exact Nat.le_trans (hle x h1) (Nat.le_of_not_lt h)

theorem pySetItem_obj (kvs : List (Str × Json)) (k : Str) (v : Json) :
    pySetItem (Json.obj kvs) k v = Except.ok (Json.obj (setFirst kvs k v)) := rfl

theorem aiBranch_frame (agentResp : Except Str Json) (api_key original : Str)
    (g : Json) (kvs : List (Str × Json)) (quick : List Str) (out : Json)
    (hv : aiBranch agentResp api_key original g (Json.obj kvs) quick = Except.ok out) :
    ∃ kvs', out = Json.obj kvs' ∧
      ∀ k, k ≠ seoKey → k ≠ validationKey → jLookup kvs' k = jLookup kvs k := by
  unfold aiBranch at hv
  cases hai : validate_with_agent original g api_key agentResp with
  | obj aikvs =>
    rw [hai] at hv
    simp only [pyGetD] at hv
    by_cases ht : pyTruthy ((jLookup aikvs (toL "is_valid")).getD (Json.bool true)) = false
    · rw [if_pos ht] at hv
      simp only [pySetItem] at hv
      cases hiss : (jLookup aikvs (toL "issues_found")).getD (Json.arr []) with
      | arr l =>
        rw [hiss] at hv
        simp only [pySetItem] at hv
        cases hv
        refine ⟨_, rfl, ?_⟩
        intro k hk1 hk2
        rw [jLookup_setFirst_ne _ _ _ _ hk2, jLookup_setFirst_ne _ _ _ _ hk1]
      | null => rw [hiss] at hv; exact absurd hv (by simp)
      | bool b => rw [hiss] at hv; exact absurd hv (by simp)
      | num n => rw [hiss] at hv; exact absurd hv (by simp)
      | str s => rw [hiss] at hv; exact absurd hv (by simp)
      | obj o => rw [hiss] at hv; exact absurd hv (by simp)
    · rw [if_neg ht] at hv
      cases hiss : (jLookup aikvs (toL "issues_found")).getD (Json.arr []) with
      | arr l =>
        rw [hiss] at hv
        simp only [pySetItem] at hv
        cases hv
        refine ⟨_, rfl, ?_⟩
        intro k hk1 hk2
        rw [jLookup_setFirst_ne _ _ _ _ hk2]
      | null => rw [hiss] at hv; exact absurd hv (by simp)
      | bool b => rw [hiss] at hv; exact absurd hv (by simp)
      | num n => rw [hiss] at hv; exact absurd hv (by simp)
      | str s => rw [hiss] at hv; exact absurd hv (by simp)
      | obj o => rw [hiss] at hv; exact absurd hv (by simp)
  | null => rw [hai] at hv; exact absurd hv (by simp [pyGetD])
  | bool b => rw [hai] at hv; exact absurd hv (by simp [pyGetD])
  | num n => rw [hai] at hv; exact absurd hv (by simp [pyGetD])
  | str s => rw [hai] at hv; exact absurd hv (by simp [pyGetD])
  | arr l => rw [hai] at hv; exact absurd hv (by simp [pyGetD])

theorem validateRecord_frame (enable : Bool) (agentResp : Except Str Json)
    (api_key : Str) (product : Product) (kvs : List (Str × Json)) (out : Json)
    (hv : validateRecord enable agentResp api_key product (Json.obj kvs) = Except.ok out) :
    ∃ kvs', out = Json.obj kvs' ∧
      ∀ k, k ≠ seoKey → k ≠ validationKey → jLookup kvs' k = jLookup kvs k := by
  unfold validateRecord at hv
  simp only [pyGetD] at hv
  cases hq : quickIssuesOf product.titulo_sistema_existente
      ((jLookup kvs seoKey).getD (Json.str [])) with
  | error e => rw [hq] at hv; exact absurd hv (by simp)
  | ok quick =>
    rw [hq] at hv
    have hv2 : (if quick ≠ [] ∧ enable = true then
        aiBranch agentResp api_key product.titulo_sistema_existente
          ((jLookup kvs seoKey).getD (Json.str [])) (Json.obj kvs) quick
      else if quick ≠ [] then
        pySetItem (Json.obj kvs) validationKey (Json.obj (rulesOnlyMeta quick))
      else pySetItem (Json.obj kvs) validationKey (Json.obj initialMeta)) = Except.ok out := hv
    by_cases hcond : quick ≠ [] ∧ enable = true
    · rw [if_pos hcond] at hv2
      exact aiBranch_frame _ _ _ _ _ _ _ hv2
    · rw [if_neg hcond] at hv2
      by_cases h2 : quick ≠ []
      · rw [if_pos h2] at hv2
        simp only [pySetItem] at hv2
        cases hv2
        exact ⟨_, rfl, fun k _ hk2 => jLookup_setFirst_ne _ _ _ _ hk2⟩
      · rw [if_neg h2] at hv2
        simp only [pySetItem] at hv2
        cases hv2
        exact ⟨_, rfl, fun k _ hk2 => jLookup_setFirst_ne _ _ _ _ hk2⟩

theorem jLookup_any_of_some (kvs : List (Str × Json)) (k : Str) (v : Json)
    (h : jLookup kvs k = some v) : kvs.any (fun p => decide (p.1 = k)) = true := by
  induction kvs with
  | nil => simp [jLookup] at h
  | cons p rest ih =>
    by_cases h1 : p.1 = k
    · simp [h1]
    · simp only [jLookup] at h
      rw [if_neg h1] at h
      simp [h1, ih h]

theorem jLookup_none_any (kvs : List (Str × Json)) (k : Str)
    (h : jLookup kvs k = none) : kvs.any (fun p => decide (p.1 = k)) = false := by
  induction kvs with
  | nil => simp
  | cons p rest ih =>
    simp only [jLookup] at h
    by_cases h1 : p.1 = k
    · rw [if_pos h1] at h; exact absurd h (by simp)
    · rw [if_neg h1] at h
      simp [h1, ih h]

theorem normalizeField_hit (tr : List (Str × Str)) (brand : Str)
    (kvs : List (Str × Json)) (key s : Str)
    (h : jLookup kvs key = some (Json.str s)) :
    normalizeField tr brand (Json.obj kvs) key =
      Except.ok (Json.obj (setFirst kvs key (Json.str (postProcessTitle tr brand s)))) := by
  unfold normalizeField
  simp only [pyIn]
  rw [jLookup_any_of_some kvs key _ h]
  simp only [if_true, pyGetItem]
  rw [h]
  rfl

theorem normalizeField_other (tr : List (Str × Str)) (brand : Str)
    (kvs : List (Str × Json)) (key : Str) :
    ∃ kvs', normalizeField tr brand (Json.obj kvs) key = Except.ok (Json.obj kvs') ∧
      ∀ k, k ≠ key → jLookup kvs' k = jLookup kvs k := by
  unfold normalizeField
  simp only [pyIn]
  cases hlook : jLookup kvs key with
  | none =>
    rw [jLookup_none_any kvs key hlook]
    exact ⟨kvs, rfl, fun _ _ => rfl⟩
  | some v =>
    rw [jLookup_any_of_some kvs key v hlook]
    simp only [if_true, pyGetItem]
    rw [hlook]
    cases v with
    | str s =>
      exact ⟨setFirst kvs key (Json.str (postProcessTitle tr brand s)), rfl,
        fun k hk => jLookup_setFirst_ne _ _ _ _ hk⟩
    | null => exact ⟨kvs, rfl, fun _ _ => rfl⟩
    | bool b => exact ⟨kvs, rfl, fun _ _ => rfl⟩
    | num n => exact ⟨kvs, rfl, fun _ _ => rfl⟩
    | arr l => exact ⟨kvs, rfl, fun _ _ => rfl⟩
    | obj o => exact ⟨kvs, rfl, fun _ _ => rfl⟩

theorem normalizeRecord_titles (tr : List (Str × Str)) (brand : Str)
    (kvs : List (Str × Json)) (s e : Str)
    (hs : jLookup kvs sistemaKey = some (Json.str s))
    (he : jLookup kvs etiquetaKey = some (Json.str e)) :
    ∃ kvs', normalizeRecord tr brand (Json.obj kvs) = Except.ok (Json.obj kvs') ∧
      jLookup kvs' sistemaKey = some (Json.str (postProcessTitle tr brand s)) ∧
      jLookup kvs' etiquetaKey = some (Json.str (postProcessTitle tr brand e)) := by
  have hse : sistemaKey ≠ etiquetaKey := by decide
  have hss : sistemaKey ≠ seoKey := by decide
  have hes : etiquetaKey ≠ seoKey := by decide
  have he1 : jLookup (setFirst kvs sistemaKey (Json.str (postProcessTitle tr brand s)))
      etiquetaKey = some (Json.str e) := by
    rw [jLookup_setFirst_ne _ _ _ _ (Ne.symm hse)]
    exact he
  have h1 := normalizeField_hit tr brand kvs sistemaKey s hs
  have h2 := normalizeField_hit tr brand _ etiquetaKey e he1
  obtain ⟨kvs', hrun, hframe⟩ := normalizeField_other tr brand
    (setFirst (setFirst kvs sistemaKey (Json.str (postProcessTitle tr brand s)))
      etiquetaKey (Json.str (postProcessTitle tr brand e))) seoKey
  refine ⟨kvs', ?_, ?_, ?_⟩
  · simp only [normalizeRecord, h1, h2, hrun]
  · rw [hframe sistemaKey hss, jLookup_setFirst_ne _ _ _ _ hse, jLookup_setFirst_self]
  · rw [hframe etiquetaKey hes, jLookup_setFirst_self]

theorem validateRecord_seoStr (enable : Bool) (agentResp : Except Str Json)
    (api_key : Str) (product : Product) (kvs : List (Str × Json)) (s : Str)
    (hseo : jLookup kvs seoKey = some (Json.str s)) :
    validateRecord enable agentResp api_key product (Json.obj kvs) =
      (if quick_validation_rules product.titulo_sistema_existente s ≠ [] ∧ enable = true then
        aiBranch agentResp api_key product.titulo_sistema_existente (Json.str s)
          (Json.obj kvs) (quick_validation_rules product.titulo_sistema_existente s)
      else if quick_validation_rules product.titulo_sistema_existente s ≠ [] then
        pySetItem (Json.obj kvs) validationKey
          (Json.obj (rulesOnlyMeta (quick_validation_rules product.titulo_sistema_existente s)))
      else pySetItem (Json.obj kvs) validationKey (Json.obj initialMeta)) := by
  have h1 : pyGetD (Json.obj kvs) seoKey (Json.str []) = Except.ok (Json.str s) := by
    simp [pyGetD, hseo]
  unfold validateRecord
  rw [h1]
  rfl

theorem aiBranch_error (agentMsg api_key original : Str) (g : Json)
    (kvs : List (Str × Json)) (quick : List Str) :
    aiBranch (Except.error agentMsg) api_key original g (Json.obj kvs) quick =
      Except.ok (Json.obj (setFirst (setFirst kvs seoKey g) validationKey (Json.obj
        [(toL "validation_method", Json.str (toL "ai_validated")),
         (toL "validation_status", Json.str (toL "corrected")),
         (toL "issues_found",
           Json.arr (quick.map Json.str ++ [Json.str (toL "Validation error: " ++ agentMsg)])),
         (toL "corrected", Json.bool true)]))) := rfl

theorem find_filter (p q : α → Bool) (l : List α) :
    (l.filter p).find? q = l.find? (fun x => p x && q x) := by
  induction l with
  | nil => rfl
  | cons a tail ih =>
    by_cases hp : p a
    · by_cases hq : q a
      · simp [List.filter_cons, List.find?_cons, hp, hq]
      · simp [List.filter_cons, List.find?_cons, hp, hq, ih]
    · simp [List.filter_cons, List.find?_cons, hp, ih]

theorem take_minus_dropWhile (p : Char → Bool) (w : Str) :
    w.take (w.length - (w.dropWhile p).length) = w.takeWhile p := by
  have h := List.takeWhile_append_dropWhile p w
  have hlen2 : (w.takeWhile p).length + (w.dropWhile p).length = w.length := by
    have hc := congrArg List.length h
    rw [List.length_append] at hc
    exact hc
  have hlen : w.length - (w.dropWhile p).length = (w.takeWhile p).length := by omega
  rw [hlen]
  calc w.take (w.takeWhile p).length
      = (w.takeWhile p ++ w.dropWhile p).take (w.takeWhile p).length := by rw [h]
    _ = w.takeWhile p := List.take_left _ _

-- === Claim theorems ===

/-- Claim C7: whenever the AI correction call fails for any reason (transport
error, non-JSON response, any raised exception — all modelled by the `.error`
outcome of the external call), `validate_with_agent` returns the fallback dict
with `is_valid` false, `corrected_title` equal to the generated title
unchanged, `issues_found` containing the error description, and `confidence`
"low"; being a total function of the modelled outcome, it never propagates the
exception and never aborts the batch. -/
theorem claim_C7_agent_failure_degrades (original_title : Str) (generated_title : Json)
    (api_key e : Str) :
    validate_with_agent original_title generated_title api_key (Except.error e) =
      Json.obj
        [(toL "is_valid", Json.bool false),
         (toL "corrected_title", generated_title),
         (toL "issues_found", Json.arr [Json.str (toL "Validation error: " ++ e)]),
         (toL "removed_phrases", Json.arr []),
         (toL "confidence", Json.str (toL "low"))] := rfl

/-- Claim C10: `quick_validation_rules` returns no issues whenever either
title is the empty string (even if the original contains measurement tokens),
and a record whose generated `titulo_seo` is the empty string consequently
gets validation metadata with method "none" and status "passed"
(`initialMeta`). -/
theorem claim_C10_empty_title_passes :
    (∀ original generated : Str, original = [] ∨ generated = [] →
      quick_validation_rules original generated = []) ∧
    (∀ (enable : Bool) (agentResp : Except Str Json) (api_key : Str)
        (product : Product) (kvs : List (Str × Json)),
      jLookup kvs seoKey = some (Json.str []) →
      validateRecord enable agentResp api_key product (Json.obj kvs) =
        Except.ok (Json.obj (setFirst kvs validationKey (Json.obj initialMeta)))) := by
  constructor
  · intro original generated h
    unfold quick_validation_rules
    rw [if_pos h]
  · intro enable agentResp api_key product kvs hseo
    rw [validateRecord_seoStr enable agentResp api_key product kvs [] hseo]
    have hq0 : quick_validation_rules product.titulo_sistema_existente [] = [] := by
      unfold quick_validation_rules
      rw [if_pos (Or.inr rfl)]
    rw [hq0]
    simp [pySetItem]

/-- Witness for C10 at a concrete record: an original full of measurements
and an empty generated SEO title yield no issues and a passed/none record. -/
theorem claim_C10_witness :
    quick_validation_rules (toL "BOMBA 5HP 1/2 plg") [] = [] ∧
    validateRecord true (Except.error (toL "boom")) []
        ⟨toL "BOMBA 5HP 1/2 plg", toL "D", toL "F", toL "C", []⟩
        (Json.obj [(seoKey, Json.str [])]) =
      Except.ok (Json.obj (setFirst [(seoKey, Json.str [])] validationKey
        (Json.obj initialMeta))) :=
  ⟨claim_C10_empty_title_passes.1 _ _ (Or.inr rfl),
   claim_C10_empty_title_passes.2 true (Except.error (toL "boom")) []
     ⟨toL "BOMBA 5HP 1/2 plg", toL "D", toL "F", toL "C", []⟩
     [(seoKey, Json.str [])] rfl⟩

/-- Claim C9: when quick-check issues are present, AI validation is enabled
and the correction call raises, the record is marked method "ai_validated",
status "corrected" with `corrected = true`, and its `titulo_seo` is replaced
by the identical string: in the emitted status fields a failed correction
call is indistinguishable from a genuine correction. -/
theorem claim_C9_failed_call_marked_corrected (agentMsg api_key : Str)
    (product : Product) (kvs : List (Str × Json)) (s : Str)
    (hseo : jLookup kvs seoKey = some (Json.str s))
    (hq : quick_validation_rules product.titulo_sistema_existente s ≠ []) :
    ∃ kvs', validateRecord true (Except.error agentMsg) api_key product (Json.obj kvs) =
        Except.ok (Json.obj kvs') ∧
      jLookup kvs' seoKey = some (Json.str s) ∧
      jLookup kvs' validationKey = some (Json.obj
        [(toL "validation_method", Json.str (toL "ai_validated")),
         (toL "validation_status", Json.str (toL "corrected")),
         (toL "issues_found", Json.arr
           ((quick_validation_rules product.titulo_sistema_existente s).map Json.str
             ++ [Json.str (toL "Validation error: " ++ agentMsg)])),
         (toL "corrected", Json.bool true)]) := by
  refine ⟨setFirst (setFirst kvs seoKey (Json.str s)) validationKey (Json.obj
    [(toL "validation_method", Json.str (toL "ai_validated")),
     (toL "validation_status", Json.str (toL "corrected")),
     (toL "issues_found", Json.arr
       ((quick_validation_rules product.titulo_sistema_existente s).map Json.str
         ++ [Json.str (toL "Validation error: " ++ agentMsg)])),
     (toL "corrected", Json.bool true)]), ?_, ?_, ?_⟩
  · rw [validateRecord_seoStr true (Except.error agentMsg) api_key product kvs s hseo,
      if_pos ⟨hq, rfl⟩,
      aiBranch_error agentMsg api_key product.titulo_sistema_existente (Json.str s) kvs
        (quick_validation_rules product.titulo_sistema_existente s)]
  · rw [jLookup_setFirst_ne _ _ _ _ (show seoKey ≠ validationKey by decide),
      jLookup_setFirst_self]
  · rw [jLookup_setFirst_self]

/-- Witness for C9 at a concrete record: the original has a measurement the
generated SEO title dropped, and the correction call fails. -/
theorem claim_C9_witness :
    ∃ kvs', validateRecord true (Except.error (toL "boom")) []
        ⟨toL "BOMBA 5HP", toL "D", toL "F", toL "C", []⟩
        (Json.obj [(seoKey, Json.str (toL "Bomba"))]) =
      Except.ok (Json.obj kvs') ∧
      jLookup kvs' seoKey = some (Json.str (toL "Bomba")) ∧
      jLookup kvs' validationKey = some (Json.obj
        [(toL "validation_method", Json.str (toL "ai_validated")),
         (toL "validation_status", Json.str (toL "corrected")),
         (toL "issues_found", Json.arr
           ((quick_validation_rules (toL "BOMBA 5HP") (toL "Bomba")).map Json.str
             ++ [Json.str (toL "Validation error: " ++ toL "boom")])),
         (toL "corrected", Json.bool true)]) :=
  claim_C9_failed_call_marked_corrected (toL "boom") []
    ⟨toL "BOMBA 5HP", toL "D", toL "F", toL "C", []⟩
    [(seoKey, Json.str (toL "Bomba"))] (toL "Bomba") rfl (by decide)

/-- Claim C8: a successful validation step never changes the generated
`titulo_sistema` or `titulo_etiqueta` — in fact it changes nothing but the
`titulo_seo` field and the attached `validation` metadata. -/
theorem claim_C8_validation_only_touches_seo (enable : Bool)
    (agentResp : Except Str Json) (api_key : Str) (product : Product)
    (kvs : List (Str × Json)) (out : Json)
    (hv : validateRecord enable agentResp api_key product (Json.obj kvs) = Except.ok out) :
    ∃ kvs', out = Json.obj kvs' ∧
      jLookup kvs' sistemaKey = jLookup kvs sistemaKey ∧
      jLookup kvs' etiquetaKey = jLookup kvs etiquetaKey ∧
      ∀ k, k ≠ seoKey → k ≠ validationKey → jLookup kvs' k = jLookup kvs k := by
  obtain ⟨kvs', hout, hframe⟩ := validateRecord_frame enable agentResp api_key product kvs out hv
  exact ⟨kvs', hout, hframe _ (by decide) (by decide), hframe _ (by decide) (by decide), hframe⟩

/-- Witness for C8 at a concrete corrected record. -/
theorem claim_C8_witness :
    ∃ kvs', Json.obj (setFirst (setFirst [(sistemaKey, Json.str (toL "Bomba 5HP")),
          (seoKey, Json.str (toL "Bomba"))] seoKey (Json.str (toL "Bomba")))
        validationKey (Json.obj
          [(toL "validation_method", Json.str (toL "ai_validated")),
           (toL "validation_status", Json.str (toL "corrected")),
           (toL "issues_found", Json.arr
             ((quick_validation_rules (toL "BOMBA 5HP") (toL "Bomba")).map Json.str
               ++ [Json.str (toL "Validation error: " ++ toL "boom")])),
           (toL "corrected", Json.bool true)])) = Json.obj kvs' ∧
      jLookup kvs' sistemaKey =
        jLookup [(sistemaKey, Json.str (toL "Bomba 5HP")), (seoKey, Json.str (toL "Bomba"))] sistemaKey ∧
      jLookup kvs' etiquetaKey =
        jLookup [(sistemaKey, Json.str (toL "Bomba 5HP")), (seoKey, Json.str (toL "Bomba"))] etiquetaKey ∧
      ∀ k, k ≠ seoKey → k ≠ validationKey →
        jLookup kvs' k =
          jLookup [(sistemaKey, Json.str (toL "Bomba 5HP")), (seoKey, Json.str (toL "Bomba"))] k :=
  claim_C8_validation_only_touches_seo true (Except.error (toL "boom")) []
    ⟨toL "BOMBA 5HP", toL "D", toL "F", toL "C", []⟩
    [(sistemaKey, Json.str (toL "Bomba 5HP")), (seoKey, Json.str (toL "Bomba"))] _ rfl

/-- Claim C1 (amended): a generation response that decodes to a JSON array
shorter than the batch is NOT a total batch failure: `zip` silently truncates,
so exactly the first `min(len(batch), len(response))` records are paired by
index and accepted; the remaining records are dropped without being reported.
Stated for any run whose per-record processing succeeds. -/
theorem claim_C1_short_response_partially_accepted (products_batch : List Product)
    (nomenclature_pattern : Str) (transformations : List (Str × Str)) (api_key : Str)
    (enable : Bool) (agent : Nat → Except Str Json) (xs ys : List Json)
    (hne : products_batch ≠ [])
    (hinner : processBatchInner transformations api_key enable agent products_batch xs =
      Except.ok ys) :
    process_batch_with_validation products_batch nomenclature_pattern transformations
        api_key enable (Except.ok (Json.arr xs)) agent = ys ∧
      ys.length = min products_batch.length xs.length := by
  constructor
  · unfold process_batch_with_validation
    rw [if_neg (by simpa [List.isEmpty_iff] using hne)]
    have hred : (match processBatchInner transformations api_key enable agent
          products_batch xs with
        | Except.ok final_results => final_results
        | Except.error _ => []) = ys := by rw [hinner]
    exact hred
  · have h2 := mapME_ok_length _ _ _ hinner
    rw [enumFrom_length, List.length_zip] at h2
    exact h2

/-- Counterexample to C1 as stated: a batch of two records with a one-element
response array accepts one record instead of failing both. -/
theorem claim_C1_counterexample :
    (process_batch_with_validation
      [⟨toL "T", toL "D", toL "F", toL "C", []⟩, ⟨toL "M", toL "D", toL "F", toL "C", []⟩]
      [] [] [] true (Except.ok (Json.arr [Json.obj []])) (fun _ => Except.error [])).length
      = 1 := rfl

/-- Witness for the amended C1 on the same concrete two-record batch. -/
theorem claim_C1_witness :
    process_batch_with_validation
        [⟨toL "T", toL "D", toL "F", toL "C", []⟩, ⟨toL "M", toL "D", toL "F", toL "C", []⟩]
        [] [] [] true (Except.ok (Json.arr [Json.obj []])) (fun _ => Except.error []) =
      [Json.obj [(validationKey, Json.obj initialMeta)]] ∧
    ([Json.obj [(validationKey, Json.obj initialMeta)]] : List Json).length = min 2 1 :=
  claim_C1_short_response_partially_accepted
    [⟨toL "T", toL "D", toL "F", toL "C", []⟩, ⟨toL "M", toL "D", toL "F", toL "C", []⟩]
    [] [] [] true (fun _ => Except.error []) [Json.obj []]
    [Json.obj [(validationKey, Json.obj initialMeta)]] (by simp) rfl

/-- Claim C2 (amended): the pipeline applies only the text-normalization
chain to `titulo_sistema` and `titulo_etiqueta` — the emitted values are
exactly `postProcessTitle` of the engine's values, with no length-based
shortening, so the 40/36-character limits are requested from the generation
engine but not enforced. -/
theorem claim_C2_no_shortening (transformations : List (Str × Str)) (api_key : Str)
    (enable : Bool) (agentResp : Except Str Json) (product : Product)
    (kvs : List (Str × Json)) (s e : Str) (out : Json)
    (hs : jLookup kvs sistemaKey = some (Json.str s))
    (he : jLookup kvs etiquetaKey = some (Json.str e))
    (hp : processRecord transformations api_key enable agentResp product (Json.obj kvs) =
      Except.ok out) :
    ∃ kvs', out = Json.obj kvs' ∧
      jLookup kvs' sistemaKey =
        some (Json.str (postProcessTitle transformations (pyStrip product.marca) s)) ∧
      jLookup kvs' etiquetaKey =
        some (Json.str (postProcessTitle transformations (pyStrip product.marca) e)) := by
  obtain ⟨kvsn, hrun, hsn, hen⟩ :=
    normalizeRecord_titles transformations (pyStrip product.marca) kvs s e hs he
  unfold processRecord at hp
  rw [hrun] at hp
  have hp2 : validateRecord enable agentResp api_key product (Json.obj kvsn) =
      Except.ok out := hp
  obtain ⟨kvs', hout, hframe⟩ :=
    validateRecord_frame enable agentResp api_key product kvsn out hp2
  refine ⟨kvs', hout, ?_, ?_⟩
  · rw [hframe _ (by decide) (by decide)]
    exact hsn
  · rw [hframe _ (by decide) (by decide)]
    exact hen

/-- Counterexample to C2 as stated: a 50-character `titulo_sistema` from the
engine is emitted at full length 50 > 40 — nothing shortens it. -/
theorem claim_C2_counterexample :
    process_batch_with_validation
        [⟨toL "TALADRO", toL "D", toL "F", toL "C", []⟩] [] [] [] true
        (Except.ok (Json.arr [Json.obj [(sistemaKey, Json.str (List.replicate 50 'x'))]]))
        (fun _ => Except.error []) =
      [Json.obj [(sistemaKey, Json.str (List.replicate 50 'x')),
                 (validationKey, Json.obj initialMeta)]] ∧
      40 < (List.replicate 50 'x').length := by
  constructor
  · rfl
  · decide

/-- Witness for the amended C2 on a concrete over-long title. -/
theorem claim_C2_witness :
    ∃ kvs', Json.obj (setFirst (setFirst [(sistemaKey, Json.str (List.replicate 50 'x')),
          (etiquetaKey, Json.str (toL "Taladro"))] etiquetaKey (Json.str (toL "Taladro")))
        validationKey (Json.obj initialMeta)) = Json.obj kvs' ∧
      jLookup kvs' sistemaKey =
        some (Json.str (postProcessTitle [] (pyStrip []) (List.replicate 50 'x'))) ∧
      jLookup kvs' etiquetaKey =
        some (Json.str (postProcessTitle [] (pyStrip []) (toL "Taladro"))) :=
  claim_C2_no_shortening [] [] true (Except.error []) ⟨toL "TALADRO", toL "D", toL "F", toL "C", []⟩
    [(sistemaKey, Json.str (List.replicate 50 'x')), (etiquetaKey, Json.str (toL "Taladro"))]
    (List.replicate 50 'x') (toL "Taladro") _ rfl rfl rfl

/-- Claim C3 (amended): the full normalizer chain is NOT idempotent in
general — a second pass can strip further brand fragments or newly exposed
generic "para" tails.  It is idempotent exactly when each of the five stages
already fixes the first pass's output: under those fixpoint hypotheses a
second full pass is a no-op, the final whitespace collapse being idempotent
unconditionally. -/
theorem claim_C3_conditional_idempotence (transformations : List (Str × Str))
    (brand t : Str)
    (h1 : apply_transformations (postProcessTitle transformations brand t) transformations =
      postProcessTitle transformations brand t)
    (h2 : remove_brand_occurrences (postProcessTitle transformations brand t) brand =
      postProcessTitle transformations brand t)
    (h3 : de_shout (postProcessTitle transformations brand t) =
      postProcessTitle transformations brand t)
    (h4 : remove_forbidden_terms (postProcessTitle transformations brand t) =
      postProcessTitle transformations brand t)
    (h5 : remove_generic_para_phrases (postProcessTitle transformations brand t) =
      postProcessTitle transformations brand t) :
    postProcessTitle transformations brand (postProcessTitle transformations brand t) =
      postProcessTitle transformations brand t := by
  show collapseWs (remove_generic_para_phrases (remove_forbidden_terms (de_shout
    (remove_brand_occurrences
      (apply_transformations (postProcessTitle transformations brand t) transformations)
      brand)))) = postProcessTitle transformations brand t
  rw [h1, h2, h3, h4, h5]
  have hPt : postProcessTitle transformations brand t =
      collapseWs (remove_generic_para_phrases (remove_forbidden_terms (de_shout
        (remove_brand_occurrences (apply_transformations t transformations) brand)))) := rfl
  rw [hPt]
  exact collapseWs_idem _

/-- Counterexample to C3 as stated: with empty memory and empty brand, one
pass leaves "Tubo para plomeria" (only the trailing "para tuberia" matches a
tail pattern), and the second pass strips the newly exposed "para plomeria"
tail — the chain is not idempotent. -/
theorem claim_C3_counterexample :
    postProcessTitle [] [] (postProcessTitle [] [] (toL "Tubo para plomeria para tuberia")) ≠
      postProcessTitle [] [] (toL "Tubo para plomeria para tuberia") := by decide

/-- Witness for the amended C3: on "Tubo PVC" every stage fixes the one-pass
output, and the chain is idempotent there. -/
theorem claim_C3_witness :
    postProcessTitle [] [] (postProcessTitle [] [] (toL "Tubo PVC")) =
      postProcessTitle [] [] (toL "Tubo PVC") :=
  claim_C3_conditional_idempotence [] [] (toL "Tubo PVC") rfl rfl rfl rfl rfl

/-- Claim C4 (amended): a whitespace-delimited token whose punctuation-stripped
core is all upper-case, longer than one character and not in the
case-sensitive allow-list is rewritten to its stripped leading punctuation
followed by the capitalized core — the stripped trailing punctuation is
dropped, because the source computes the suffix length from the already
right-stripped string (always 0); all other tokens pass through unchanged;
`de_shout` acts token-wise on the whitespace split; and
`de_shout "VALVULA PVC 1/2 PLG" = "Valvula PVC 1/2 Plg"`: upper-case "PLG" is
not in the allow-list (only lowercase "plg" is), so it is capitalized. -/
theorem claim_C4_de_shout_tokenwise :
    (∀ w : Str, 1 < (bareOf w).length → pyIsUpper (bareOf w) = true →
      bareOf w ∉ ACRONYMS_OK →
      deShoutTok w = w.takeWhile isPunctCh ++ capFirst (bareOf w)) ∧
    (∀ w : Str, ¬(1 < (bareOf w).length ∧ pyIsUpper (bareOf w) = true ∧
        bareOf w ∉ ACRONYMS_OK) →
      deShoutTok w = w) ∧
    (∀ ws : List Str, (∀ w ∈ ws, w ≠ [] ∧ ∀ c ∈ w, isSpaceCh c = false) →
      de_shout (joinSpace ws) = joinSpace (ws.map deShoutTok)) ∧
    de_shout (toL "VALVULA PVC 1/2 PLG") = toL "Valvula PVC 1/2 Plg" := by
  refine ⟨?_, ?_, ?_, rfl⟩
  · intro w hlen hup hmem
    show (if 1 < (bareOf w).length ∧ pyIsUpper (bareOf w) = true ∧ bareOf w ∉ ACRONYMS_OK then
        w.take (w.length - (w.dropWhile isPunctCh).length) ++ capFirst (bareOf w) ++
          (if (bareOf w).length - (bareOf w).length > 0 then
            w.drop (w.length - ((bareOf w).length - (bareOf w).length)) else [])
      else w) = w.takeWhile isPunctCh ++ capFirst (bareOf w)
    rw [if_pos ⟨hlen, hup, hmem⟩, Nat.sub_self]
    rw [if_neg (by decide : ¬ ((0 : Nat) > 0))]
    rw [List.append_nil, take_minus_dropWhile]
  · intro w h
    show (if 1 < (bareOf w).length ∧ pyIsUpper (bareOf w) = true ∧ bareOf w ∉ ACRONYMS_OK then
        w.take (w.length - (w.dropWhile isPunctCh).length) ++ capFirst (bareOf w) ++
          (if (bareOf w).length - (bareOf w).length > 0 then
            w.drop (w.length - ((bareOf w).length - (bareOf w).length)) else [])
      else w) = w
    rw [if_neg h]
  · intro ws hws
    show joinSpace ((pySplit (joinSpace ws)).map deShoutTok) = joinSpace (ws.map deShoutTok)
    rw [joinSpace_split ws hws]

/-- Counterexample to C4 as stated: the claimed concrete equality fails
("PLG" is capitalized to "Plg"), and stripped trailing punctuation is not
preserved ("ABC," becomes "Abc", not "Abc,"). -/
theorem claim_C4_counterexample :
    de_shout (toL "VALVULA PVC 1/2 PLG") ≠ toL "Valvula PVC 1/2 PLG" ∧
    de_shout (toL "ABC,") ≠ toL "Abc," := by decide

/-- Witness for the amended C4 at concrete tokens. -/
theorem claim_C4_witness :
    deShoutTok (toL "VALVULA") =
      (toL "VALVULA").takeWhile isPunctCh ++ capFirst (bareOf (toL "VALVULA")) ∧
    deShoutTok (toL "PVC") = toL "PVC" ∧
    de_shout (joinSpace [toL "Tubo", toL "PVC"]) =
      joinSpace ([toL "Tubo", toL "PVC"].map deShoutTok) :=
  ⟨claim_C4_de_shout_tokenwise.1 (toL "VALVULA") (by decide) (by decide) (by decide),
   claim_C4_de_shout_tokenwise.2.1 (toL "PVC") (by decide),
   claim_C4_de_shout_tokenwise.2.2.1 [toL "Tubo", toL "PVC"] (by decide)⟩

/-- Claim C5: whenever some candidate row (matching the query on normalized
department and family) has a normalized category equal to the normalized
query category, `find_pattern_row` returns a row with that exact normalized
category — never a fallback row — and it is the first such row in original
row order (the first row satisfying both predicates, as `find?` computes). -/
theorem claim_C5_exact_match_first (nomenclature_df : List Row) (dept fam cat : Str)
    (h : ∃ r ∈ nomenclature_df, candMatch dept fam r = true ∧ catMatch cat r = true) :
    ∃ r, find_pattern_row nomenclature_df dept fam cat = some r ∧
      normalize_tax_value r.Categoria = normalize_tax_value cat ∧
      nomenclature_df.find? (fun x => candMatch dept fam x && catMatch cat x) = some r := by
  obtain ⟨r0, hr0, hcand, hcat⟩ := h
  have hmemc : r0 ∈ nomenclature_df.filter (candMatch dept fam) :=
    List.mem_filter.mpr ⟨hr0, hcand⟩
  have hmemw : r0 ∈ (nomenclature_df.filter (candMatch dept fam)).filter (catMatch cat) :=
    List.mem_filter.mpr ⟨hmemc, hcat⟩
  have hwne : (nomenclature_df.filter (candMatch dept fam)).filter (catMatch cat) ≠ [] :=
    List.ne_nil_of_mem hmemw
  cases hh : ((nomenclature_df.filter (candMatch dept fam)).filter (catMatch cat)).head? with
  | none =>
    rw [List.head?_eq_none_iff] at hh
    exact absurd hh hwne
  | some r =>
    have hrmem : r ∈ (nomenclature_df.filter (candMatch dept fam)).filter (catMatch cat) :=
      List.mem_of_mem_head? (by rw [hh]; rfl)
    refine ⟨r, ?_, ?_, ?_⟩
    · unfold find_pattern_row
      rw [if_neg (by
        simpa [List.isEmpty_iff] using List.ne_nil_of_mem hmemc)]
      rw [if_pos (by
        simpa [List.isEmpty_iff] using hwne)]
      exact hh
    · exact of_decide_eq_true (List.mem_filter.mp hrmem).2
    · rw [← find_filter, ← filter_head_eq_find]
      exact hh

/-- Witness for C5: two candidate rows share the exact category; the first
one in row order is returned. -/
theorem claim_C5_witness :
    ∃ r, find_pattern_row
        [⟨toL "Plomeria", toL "Tubos", toL "PVC (01)", toL "patronA"⟩,
         ⟨toL "Plomeria", toL "Tubos", toL "pvc", toL "patronB"⟩]
        (toL "plomeria") (toL "TUBOS") (toL "Pvc") = some r ∧
      normalize_tax_value r.Categoria = normalize_tax_value (toL "Pvc") ∧
      List.find? (fun x => candMatch (toL "plomeria") (toL "TUBOS") x &&
          catMatch (toL "Pvc") x)
        [⟨toL "Plomeria", toL "Tubos", toL "PVC (01)", toL "patronA"⟩,
         ⟨toL "Plomeria", toL "Tubos", toL "pvc", toL "patronB"⟩] = some r :=
  claim_C5_exact_match_first
    [⟨toL "Plomeria", toL "Tubos", toL "PVC (01)", toL "patronA"⟩,
     ⟨toL "Plomeria", toL "Tubos", toL "pvc", toL "patronB"⟩]
    (toL "plomeria") (toL "TUBOS") (toL "Pvc") (by decide)

/-- Claim C6: `find_pattern_row` is a deterministic (pure) function of the
rule set and the query; in the best-effort word-overlap fallback the returned
row attains the maximum overlap score and every earlier candidate scores
strictly lower — ties on the maximum are resolved to the first tied candidate
in original row order (`Series.idxmax` returns the first occurrence). -/
theorem claim_C6_fallback_first_max (nomenclature_df : List Row) (dept fam cat : Str)
    (h1 : nomenclature_df.filter (candMatch dept fam) ≠ [])
    (h2 : ∀ r ∈ nomenclature_df.filter (candMatch dept fam), catMatch cat r = false)
    (h3 : (pySplit (normalize_tax_value cat)).eraseDups ≠ []) :
    ∃ l1 r l2, nomenclature_df.filter (candMatch dept fam) = l1 ++ r :: l2 ∧
      find_pattern_row nomenclature_df dept fam cat = some r ∧
      (∀ x ∈ l1, overlapScore cat x < overlapScore cat r) ∧
      (∀ x ∈ nomenclature_df.filter (candMatch dept fam),
        overlapScore cat x ≤ overlapScore cat r) := by
  obtain ⟨l1, r, l2, hmax, hsplit, hlt, hle⟩ :=
    idxmaxFirst_spec (overlapScore cat) (nomenclature_df.filter (candMatch dept fam)) h1
  refine ⟨l1, r, l2, hsplit, ?_, hlt, hle⟩
  unfold find_pattern_row
  rw [if_neg (by simpa [List.isEmpty_iff] using h1)]
  have hwc : (nomenclature_df.filter (candMatch dept fam)).filter (catMatch cat) = [] := by
    rw [List.filter_eq_nil_iff]
    intro a ha
    simp [h2 a ha]
  rw [hwc]
  rw [if_neg (by simp)]
  rw [if_neg h3]
  exact hmax

/-- Witness for C6: two candidates tie on one shared word with the query
category; the first row wins. -/
theorem claim_C6_witness :
    ∃ l1 r l2,
      List.filter (candMatch (toL "Plomeria") (toL "Tubos"))
        [⟨toL "Plomeria", toL "Tubos", toL "Tubo PVC", toL "patronA"⟩,
         ⟨toL "Plomeria", toL "Tubos", toL "Tubo Cobre", toL "patronB"⟩] = l1 ++ r :: l2 ∧
      find_pattern_row
        [⟨toL "Plomeria", toL "Tubos", toL "Tubo PVC", toL "patronA"⟩,
         ⟨toL "Plomeria", toL "Tubos", toL "Tubo Cobre", toL "patronB"⟩]
        (toL "Plomeria") (toL "Tubos") (toL "Tubo Acero") = some r ∧
      (∀ x ∈ l1, overlapScore (toL "Tubo Acero") x < overlapScore (toL "Tubo Acero") r) ∧
      (∀ x ∈ List.filter (candMatch (toL "Plomeria") (toL "Tubos"))
          [⟨toL "Plomeria", toL "Tubos", toL "Tubo PVC", toL "patronA"⟩,
           ⟨toL "Plomeria", toL "Tubos", toL "Tubo Cobre", toL "patronB"⟩],
        overlapScore (toL "Tubo Acero") x ≤ overlapScore (toL "Tubo Acero") r) :=
  claim_C6_fallback_first_max
    [⟨toL "Plomeria", toL "Tubos", toL "Tubo PVC", toL "patronA"⟩,
     ⟨toL "Plomeria", toL "Tubos", toL "Tubo Cobre", toL "patronB"⟩]
    (toL "Plomeria") (toL "Tubos") (toL "Tubo Acero") (by decide) (by decide) (by decide)
